import Mathlib

set_option maxHeartbeats 1000000
set_option linter.unusedVariables false

/- Verification of the crawler in crawl.py: a shallow embedding of its pure
   logic (name sanitisation, path splitting, filename uniquification, the
   streaming-download state transition, the pagination loop, the PDF text
   extractor and the top-level driver), together with theorems checking the
   specification claims against that embedding.  Machine-level effects
   (network, disk) are modelled by explicit state: the filesystem is a finite
   map from path to byte list, HTTP responses are explicit records, and page
   fetches are a list of optional pages (a missing entry or a none entry is a
   failed fetch). -/

namespace Crawl

/- Byte strings are modelled as lists of byte values. -/
abbrev Bytes := List Nat

/- ASCII bytes of the marker b with which every PDF body must start:
   percent, P, D, F, hyphen. -/
def pdfMagic : Bytes := [37, 80, 68, 70, 45]

/- Characters replaced by sanitize_name (crawl.py line 30). -/
def badChars : List Char := ['/', '\\', ':', '*', '?', '\"', '<', '>', '|']

/- The ASCII whitespace characters removed by the Python str.strip() call on
   crawl.py line 32 (Python also strips some Unicode whitespace; the claims
   only involve ASCII input). -/
def pySpaceChars : List Char := [' ', '\t', '\n', '\r', '\x0b', '\x0c']

def isPySpace (c : Char) : Bool := pySpaceChars.contains c

/- Python str.strip(chars): drop the selected characters from both ends. -/
def stripEnds (p : Char → Bool) (l : List Char) : List Char :=
  ((l.dropWhile p).reverse.dropWhile p).reverse

/- crawl.py line 31: join of the generator replacing bad characters by a
   hyphen. -/
def replaceBad (l : List Char) : List Char :=
  l.map (fun c => if badChars.contains c then '-' else c)

/- One Python str.replace of two spaces by one space: replaces the
   occurrences left to right, without overlap. -/
def collapseStep : List Char → List Char
  | [] => []
  | [c] => [c]
  | c1 :: c2 :: rest =>
    if c1 == ' ' && c2 == ' ' then ' ' :: collapseStep rest
    else c1 :: collapseStep (c2 :: rest)

/- Python membership test of a double space in the string. -/
def hasDoubleSpace : List Char → Bool
  | c1 :: c2 :: rest => (c1 == ' ' && c2 == ' ') || hasDoubleSpace (c2 :: rest)
  | _ => false

def collapseIter : Nat → List Char → List Char
  | 0, l => l
  | fuel + 1, l => if hasDoubleSpace l then collapseIter fuel (collapseStep l) else l

/- The while loop of crawl.py lines 33 and 34.  Each pass of collapseStep on a
   string holding a double space strictly shortens the string, so running at
   most length-many passes reaches the loop exit condition; the fuel is
   therefore only a bound used to express the loop structurally. -/
def collapseSpaces (l : List Char) : List Char := collapseIter l.length l

def pySanitizeCore (raw : List Char) : List Char :=
  collapseSpaces (stripEnds (fun c => c == '.') (stripEnds isPySpace (replaceBad raw)))

/- sanitize_name (crawl.py lines 26 to 35). -/
def sanitize_name (raw : String) : String :=
  if raw = "" then "Untitled"
  else
    let name := pySanitizeCore raw.toList
    if name = [] then "Untitled" else String.mk name

/- Index of the last occurrence of a character in a list. -/
def lastIdxOf (c : Char) (l : List Char) : Option Nat :=
  match l.reverse.findIdx? (fun x => x == c) with
  | some i => some (l.length - 1 - i)
  | none => none

/- os.path.splitext: split at the last dot of the last path component,
   provided a character other than a dot stands before it in that component
   (so names made only of leading dots are not split). -/
def splitext (p : String) : String × String :=
  let l := p.toList
  let nameStart : Nat := match lastIdxOf '/' l with | some i => i + 1 | none => 0
  match lastIdxOf '.' l with
  | some d =>
    if decide (nameStart ≤ d)
        && ((l.drop nameStart).take (d - nameStart)).any (fun c => ! (c == '.')) then
      (String.mk (l.take d), String.mk (l.drop d))
    else (p, "")
  | none => (p, "")

/- Lowercasing as applied by Python str.lower to ASCII header values. -/
def lowerStr (s : String) : String := String.mk (s.toList.map Char.toLower)

/- Python substring membership test, as in the content-type checks. -/
def strContains (s pat : String) : Bool :=
  s.toList.tails.any (fun t => pat.toList.isPrefixOf t)

/- Little-endian decimal digits of a natural number; the fuel makes the
   recursion structural and n + 1 units always suffice. -/
def natReprLE : Nat → Nat → List Char
  | 0, _ => []
  | fuel + 1, n =>
    if n < 10 then [Nat.digitChar n]
    else Nat.digitChar (n % 10) :: natReprLE fuel (n / 10)

/- Decimal rendering of a natural number, as produced by the Python format
   expression building the numbered filename candidates. -/
def natRepr (n : Nat) : String := String.mk (natReprLE (n + 1) n).reverse

/- The candidate name built by unique_filename at a given counter value
   (crawl.py line 201). -/
def uf_candidate (root ext : String) (counter : Nat) : String :=
  root ++ " (" ++ natRepr counter ++ ")" ++ ext

/- The while loop of unique_filename (crawl.py lines 199 to 202), against an
   explicit directory listing.  The numeric candidates are pairwise distinct,
   so a fuel of one more than the listing length provably reaches a free
   name. -/
def uf_loop (dirfiles : List String) (root ext : String) : String → Nat → Nat → String
  | cand, _, 0 => cand
  | cand, counter, fuel + 1 =>
    if cand ∈ dirfiles then
      uf_loop dirfiles root ext (uf_candidate root ext counter) (counter + 1) fuel
    else cand

/- unique_filename (crawl.py lines 193 to 203). -/
def unique_filename (dirfiles : List String) (base_name : String) : String :=
  uf_loop dirfiles (splitext base_name).1 (splitext base_name).2 base_name 1
    (dirfiles.length + 1)

/- The j-th name tried by the loop started at a given first candidate and
   counter: try j = 0 is the initial candidate, try j + 1 is the numbered
   candidate at counter + j. -/
def chainAt (root ext cand : String) (counter : Nat) : Nat → String
  | 0 => cand
  | j + 1 => uf_candidate root ext (counter + j)

/- Numeric value of a little-endian decimal digit list, inverse of
   natReprLE. -/
def decodeLE : List Char → Nat
  | [] => 0
  | c :: cs => (c.toNat - 48) + 10 * decodeLE cs

/- The filesystem, as far as stream_download observes and changes it: a
   finite map from path to file content. -/
structure FS where
  files : List (String × Bytes)
deriving DecidableEq

def FS.lookup (fs : FS) (p : String) : Option Bytes :=
  (fs.files.find? (fun e => e.1 == p)).map (fun e => e.2)

def FS.write (fs : FS) (p : String) (b : Bytes) : FS :=
  ⟨(p, b) :: fs.files.filter (fun e => ! (e.1 == p))⟩

def FS.erase (fs : FS) (p : String) : FS :=
  ⟨fs.files.filter (fun e => ! (e.1 == p))⟩

/- The response of the streamed GET: whether the status is a success (a
   failing status or transport failure raises before the file is opened), the
   Content-Type header, and the sequence of body chunks delivered. -/
structure HttpResponse where
  ok : Bool
  contentType : String
  chunks : List Bytes
deriving DecidableEq

/- Outcome of stream_download: an early return on an existing file, a normal
   return, a transport or status exception, or the RuntimeError raised by the
   PDF validation with its message. -/
inductive DlResult where
  | skipped
  | ok
  | httpErr
  | valErr (msg : String)
deriving DecidableEq

/- The RuntimeError message of crawl.py lines 95 to 97. -/
def pdfErrMsg (ct : String) : String :=
  "Downloaded content is not a PDF (Content-Type: "
    ++ (if ct = "" then "unknown" else ct) ++ ")"

/- stream_download (crawl.py lines 58 to 120), for both transports: the
   requests path (hasRequests true, lines 69 to 98) and the urllib fallback
   (lines 100 to 120).  Returns the new filesystem, the outcome, and whether
   a network request was issued.  The requests path skips falsy chunks and
   validates when the destination extension is .pdf or the lowercased
   content-type holds the substring pdf, accepting a first chunk lacking the
   magic when the content-type holds pdf; the urllib path reads until the
   first empty chunk and validates on the .pdf extension only, with a message
   not naming the content-type. -/
def stream_download (hasRequests : Bool) (url dest : String) (resp : HttpResponse)
    (fs : FS) : FS × DlResult × Bool :=
  if (fs.lookup dest).any (fun b => ! b.isEmpty) then (fs, .skipped, false)
  else if ! resp.ok then (fs, .httpErr, true)
  else
    let ct := lowerStr resp.contentType
    if hasRequests then
      let chunks := resp.chunks.filter (fun c => ! c.isEmpty)
      let firstChunk := chunks.head?
      let fs1 := fs.write dest chunks.flatten
      if ((splitext dest).2 |> lowerStr) == ".pdf" || strContains ct "pdf" then
        if firstChunk.isNone
            || (! firstChunk.any (fun c => pdfMagic.isPrefixOf c)
                && ! strContains ct "pdf") then
          (fs1.erase dest, .valErr (pdfErrMsg ct), true)
        else (fs1, .ok, true)
      else (fs1, .ok, true)
    else
      let chunks := resp.chunks.takeWhile (fun c => ! c.isEmpty)
      let firstChunk := chunks.head?
      let fs1 := fs.write dest chunks.flatten
      if ((splitext dest).2 |> lowerStr) == ".pdf" then
        if ! firstChunk.any (fun c => pdfMagic.isPrefixOf c) then
          (fs1.erase dest, .valErr "Downloaded content is not a PDF", true)
        else (fs1, .ok, true)
      else (fs1, .ok, true)

/- One item of a prayers array: whether the JSON value is an object, the
   value of its id field when that value is an integer, and a tag standing
   for the rest of the record. -/
structure Prayer where
  isDict : Bool
  id : Option Int
  tag : Nat
deriving DecidableEq

/- One page response, in the shape the specification documents: an optional
   integer totalCount and a prayers array (an absent or null array is the
   empty list, as crawl.py line 160 coerces falsy values). -/
structure Page where
  totalCount : Option Int
  prayers : List Prayer
deriving DecidableEq

/- The inner for loop of iter_prayers (crawl.py lines 163 to 171): walk the
   page items, skip non-object items, skip items whose integer id was already
   seen, record fresh integer ids, and yield the rest in order.  Returns the
   yielded items and the updated seen set (kept as a duplicate-free list). -/
def processPage : List Prayer → List Int → List Prayer × List Int
  | [], seen => ([], seen)
  | p :: ps, seen =>
    if p.isDict then
      match p.id with
      | some pid =>
        if pid ∈ seen then processPage ps seen
        else
          let r := processPage ps (seen ++ [pid])
          (p :: r.1, r.2)
      | none =>
        let r := processPage ps seen
        (p :: r.1, r.2)
    else processPage ps seen

/- The page loop of iter_prayers (crawl.py lines 152 to 174).  The
   environment is the list of successive fetch outcomes, a none entry being a
   fetch that raises; the loop also stops when the provided outcomes run out,
   which stands for a failing fetch of the next page.  Returns the yielded
   items and the number of page requests issued. -/
def iterPages : List (Option Page) → List Int → Option Int → List Prayer × Nat
  | [], _, _ => ([], 1)
  | none :: _, _, _ => ([], 1)
  | some pg :: rest, seen, total =>
    let total1 := match pg.totalCount with | some t => some t | none => total
    if pg.prayers.isEmpty then ([], 1)
    else
      let pr := processPage pg.prayers seen
      if total1.any (fun t => decide (t ≤ (pr.2.length : Int))) then (pr.1, 1)
      else
        let r := iterPages rest pr.2 total1
        (pr.1 ++ r.1, r.2 + 1)

/- iter_prayers for one category: the loop started at page 0 with an empty
   seen set and no known total. -/
def iter_prayers (pages : List (Option Page)) : List Prayer × Nat :=
  iterPages pages [] none

/- Integer ids of the yielded items, in yield order. -/
def idsOf (l : List Prayer) : List Int :=
  l.filterMap (fun p => if p.isDict then p.id else none)

/- The names bound at module level in crawl.py: the future import, the
   imported names of lines 4 to 16, and the module constants and functions.
   Neither PdfReader nor Path is among them. -/
def moduleNames : List String :=
  ["annotations", "ast", "json", "os", "sys", "time",
   "Any", "Dict", "Iterable", "List", "Optional", "Set", "Tuple",
   "HTTPError", "URLError", "urlencode", "unquote", "urlparse",
   "Request", "urlopen", "requests",
   "BASE_API", "DEFAULT_HEADERS",
   "sanitize_name", "ensure_dir", "http_get_json", "stream_download",
   "load_category_mapping", "iter_prayers", "build_category_dirname",
   "build_prayer_dirname", "filename_from_url", "unique_filename",
   "save_metadata", "pdf_to_txt", "read_pdf_file",
   "download_assets_for_prayer", "scrape_category", "main"]

/- The try block of read_pdf_file (crawl.py lines 228 to 233): open the file
   (openOk false is an opening failure), then evaluate the name PdfReader in
   the module scope, which raises NameError when the name is unbound; only
   then would the pages be walked and their texts (empty for a page yielding
   none) concatenated. -/
def read_pdf_file_body (openOk : Bool) (pages : List (Option String)) :
    Except String String :=
  if ! openOk then .error "OSError"
  else if ! moduleNames.contains "PdfReader" then
    .error "NameError: name PdfReader is not defined"
  else .ok (pages.foldl (fun acc pg => acc ++ pg.getD "") "")

/- read_pdf_file (crawl.py lines 225 to 236): any exception from the try
   block is caught, a corruption warning is printed, and the empty string is
   returned. -/
def read_pdf_file (openOk : Bool) (pages : List (Option String)) : String :=
  match read_pdf_file_body openOk pages with
  | .ok t => t
  | .error _ => ""

/- The last path component. -/
def basenameOf (p : String) : String :=
  String.mk ((p.toList.reverse.takeWhile (fun c => ! (c == '/'))).reverse)

/- pdf_to_txt (crawl.py lines 211 to 222): when the file suffix is pdf and
   the extracted text is not empty, write the text to the sibling txt file
   and return its path; otherwise return None and write nothing. -/
def pdf_to_txt (file_path output_dir : String) (extracted_text : String) :
    Option String :=
  let outputFile := output_dir ++ "/" ++ (splitext (basenameOf file_path)).1 ++ ".txt"
  if (splitext file_path).2.drop 1 == "pdf" then
    (if extracted_text ≠ "" then some outputFile else none)
  else none

/- One document iteration of download_assets_for_prayer after the target
   path is fixed (crawl.py lines 279 to 285): stream the download, and on
   success extract the PDF text and, when it is non-empty, write the txt
   sidecar; any exception is caught and logged.  Returns the final
   filesystem and the path of the txt file written, if any. -/
def document_step (hasRequests : Bool) (url dest docsDir : String)
    (resp : HttpResponse) (openOk : Bool) (pages : List (Option String))
    (fs : FS) : FS × Option String :=
  let r := stream_download hasRequests url dest resp fs
  match r.2.1 with
  | .skipped | .ok =>
    let extracted := read_pdf_file openOk pages
    if extracted ≠ "" then
      match pdf_to_txt dest docsDir extracted with
      | some txtPath => (FS.write r.1 txtPath (extracted.toList.map Char.toNat), some txtPath)
      | none => (r.1, none)
    else (r.1, none)
  | _ => (r.1, none)

/- Result of the driver: the process exit status, the categories attempted in
   order, those whose processing raised (caught and logged), and the printed
   total of processed items. -/
structure MainResult where
  exitCode : Nat
  attempted : List Int
  failedCats : List Int
  total : Nat
deriving DecidableEq

/- main (crawl.py lines 301 to 324).  The mapping-load outcome and the
   per-category scrape outcomes are passed in: none is a load failure (the
   driver prints an error and exits with status 1), and a scrape error is the
   exception of one category, caught and logged before the loop continues
   with the next category.  Normal completion exits with status 0. -/
def mainDriver (mappingLoad : Option (List (Int × String)))
    (scrape : Int → String → Except Unit Nat) : MainResult :=
  match mappingLoad with
  | none => ⟨1, [], [], 0⟩
  | some mapping =>
    let acc := mapping.foldl
      (fun (acc : List Int × List Int × Nat) kv =>
        match scrape kv.1 kv.2 with
        | .ok n => (acc.1 ++ [kv.1], acc.2.1, acc.2.2 + n)
        | .error _ => (acc.1 ++ [kv.1], acc.2.1 ++ [kv.1], acc.2.2))
      ([], [], 0)
    ⟨0, acc.1, acc.2.1, acc.2.2⟩

/- Concrete items for the pagination scenarios: objects with integer ids one,
   two and three. -/
def itemA : Prayer := ⟨true, some 1, 1⟩

def itemB : Prayer := ⟨true, some 2, 2⟩

def itemC : Prayer := ⟨true, some 3, 3⟩

/- Page outcomes of the counterexample to the pages-0-and-1 claim: page 0
   reports a total of one and holds one item, page 1 holds a second item,
   page 2 is the empty page. -/
def cePages : List (Option Page) :=
  [some ⟨some 1, [itemA]⟩, some ⟨none, [itemB]⟩, some ⟨none, []⟩]

/- Pages of the witness scenario for the amended pages-0-and-1 claim: page 0
   reports a total of five, and the item with id two repeats on page 1. -/
def wp0 : Page := ⟨some 5, [itemA, itemB]⟩

def wp1 : Page := ⟨none, [itemB, itemC]⟩

def wpe : Page := ⟨none, []⟩

theorem FS.lookup_write_self (fs : FS) (p : String) (b : Bytes) :
    (fs.write p b).lookup p = some b := by
  simp [FS.write, FS.lookup, List.find?]

theorem FS.lookup_erase_self (fs : FS) (p : String) :
    (fs.erase p).lookup p = none := by
  have h : ∀ e ∈ fs.files.filter (fun e => ! (e.1 == p)), ¬ ((e.1 == p) = true) := by
    intro e he
    have h2 := (List.mem_filter.mp he).2
    simp only [Bool.not_eq_true'] at h2
    simp [h2]
  simp [FS.erase, FS.lookup, List.find?_eq_none.mpr h]

/-- C8: for every URL and destination path, if a file with more than zero
bytes already exists at the destination, stream_download returns at once as
a no-op: the filesystem is returned unchanged and no network request is
issued, on either transport. -/
theorem stream_download_existing_file_noop (hasRequests : Bool) (url dest : String)
    (resp : HttpResponse) (fs : FS) (b : Bytes)
    (hb : fs.lookup dest = some b) (hlen : 0 < b.length) :
    stream_download hasRequests url dest resp fs = (fs, .skipped, false) := by
  have hne : b.isEmpty = false := by
    cases b with
    | nil => simp at hlen
    | cons x xs => rfl
  simp [stream_download, hb, hne]

/-- Witness for C8 at a concrete filesystem holding a one-byte file. -/
theorem stream_download_existing_file_noop_witness :
    stream_download true "u" "d.pdf" ⟨true, "text/html", [[1]]⟩ ⟨[("d.pdf", [9])]⟩
      = (⟨[("d.pdf", [9])]⟩, .skipped, false) :=
  stream_download_existing_file_noop true "u" "d.pdf" ⟨true, "text/html", [[1]]⟩
    ⟨[("d.pdf", [9])]⟩ [9] (by decide) (by decide)

theorem mainFold_attempted (scrape : Int → String → Except Unit Nat) :
    ∀ (mapping : List (Int × String)) (a : List Int × List Int × Nat),
      (mapping.foldl
        (fun (acc : List Int × List Int × Nat) kv =>
          match scrape kv.1 kv.2 with
          | .ok n => (acc.1 ++ [kv.1], acc.2.1, acc.2.2 + n)
          | .error _ => (acc.1 ++ [kv.1], acc.2.1 ++ [kv.1], acc.2.2)) a).1
        = a.1 ++ mapping.map (fun kv => kv.1)
  | [], a => by simp
  | hd :: tl, a => by
    simp only [List.foldl_cons, List.map_cons]
    cases h : scrape hd.1 hd.2 with
    | ok n =>
      rw [mainFold_attempted scrape tl]
      simp
    | error e =>
      rw [mainFold_attempted scrape tl]
      simp

/-- C9: the driver exits with status 1 exactly when the mapping load fails;
with a loaded mapping every category is attempted, in mapping order, whatever
the per-category outcomes (failures are caught and the loop continues), and
the exit status is 0 even when some categories failed. -/
theorem mainDriver_exit_codes (scrape : Int → String → Except Unit Nat)
    (mapping : List (Int × String)) (ml : Option (List (Int × String))) :
    (mainDriver ml scrape).exitCode = (if ml.isNone then 1 else 0)
    ∧ (mainDriver (some mapping) scrape).attempted = mapping.map (fun kv => kv.1)
    ∧ (mainDriver (some mapping) scrape).exitCode = 0 := by
  refine ⟨?_, ?_, rfl⟩
  · cases ml with
    | none => rfl
    | some m => rfl
  · have h := mainFold_attempted scrape mapping ([], [], 0)
    simpa [mainDriver] using h

/-- C5: evaluation of read_pdf_file at its failing input, an openable
well-formed PDF whose single page extracts to the text Hello.  The code
returns the empty string, because the name PdfReader is unbound in the
module scope of crawl.py, while the concatenation of the page texts that the
claim (and the function docstring) describe is Hello. -/
theorem read_pdf_file_missing_import_bug :
    read_pdf_file true [some "Hello"] = ""
    ∧ moduleNames.contains "PdfReader" = false
    ∧ ([some "Hello"].foldl (fun acc pg => acc ++ pg.getD "") "" : String) = "Hello" := by
  refine ⟨rfl, by decide, rfl⟩

/-- C6: the names PdfReader and Path are never bound in crawl.py, so
read_pdf_file raises NameError inside its try block and returns the empty
string for every input; consequently one document step never takes the
non-empty-extraction branch, never calls pdf_to_txt, and never writes a txt
sidecar: its filesystem is exactly the one stream_download leaves. -/
theorem read_pdf_file_never_extracts :
    moduleNames.contains "PdfReader" = false
    ∧ moduleNames.contains "Path" = false
    ∧ (∀ (openOk : Bool) (pages : List (Option String)),
        read_pdf_file openOk pages = "")
    ∧ (∀ (hasRequests : Bool) (url dest docsDir : String) (resp : HttpResponse)
        (openOk : Bool) (pages : List (Option String)) (fs : FS),
        document_step hasRequests url dest docsDir resp openOk pages fs
          = ((stream_download hasRequests url dest resp fs).1, none)) := by
  have hpr : moduleNames.contains "PdfReader" = false := by decide
  have hrpf : ∀ (openOk : Bool) (pages : List (Option String)),
      read_pdf_file openOk pages = "" := by
    intro openOk pages
    cases openOk with
    | false => rfl
    | true => rfl
  refine ⟨hpr, by decide, hrpf, ?_⟩
  intro hasRequests url dest docsDir resp openOk pages fs
  unfold document_step
  rw [hrpf openOk pages]
  dsimp only
  split <;> simp

/-- C7: a page fetch that raises behaves exactly like running out of data:
the pagination loop returns the same (error-free) value whatever would have
come after the failed fetch, so the failure silently ends the category and
no error surfaces to the caller. -/
theorem iter_prayers_fetch_failure_end_of_data :
    ∀ (pref rest : List (Option Page)) (seen : List Int) (total : Option Int),
      iterPages (pref ++ none :: rest) seen total = iterPages pref seen total
  | [], rest, seen, total => rfl
  | none :: tl, rest, seen, total => rfl
  | some pg :: tl, rest, seen, total => by
    simp only [List.cons_append, iterPages, List.append_eq]
    rw [iter_prayers_fetch_failure_end_of_data tl rest]

theorem collapseStep_sublist : ∀ l : List Char, List.Sublist (collapseStep l) l
  | [] => by simp [collapseStep]
  | [c] => by simp [collapseStep]
  | c1 :: c2 :: rest => by
    by_cases h : (c1 == ' ' && c2 == ' ') = true
    · simp only [collapseStep, if_pos h]
      have h1 : c1 = ' ' := by
        simp only [Bool.and_eq_true, beq_iff_eq] at h
        exact h.1
      rw [h1]
      exact List.Sublist.cons₂ ' ' (List.Sublist.cons c2 (collapseStep_sublist rest))
    · simp only [collapseStep, if_neg h]
      exact List.Sublist.cons₂ c1 (collapseStep_sublist (c2 :: rest))

theorem collapseStep_lt : ∀ l : List Char, hasDoubleSpace l = true →
    (collapseStep l).length < l.length
  | [] => by intro h; simp [hasDoubleSpace] at h
  | [c] => by intro h; simp [hasDoubleSpace] at h
  | c1 :: c2 :: rest => by
    intro hd
    by_cases h : (c1 == ' ' && c2 == ' ') = true
    · simp only [collapseStep, if_pos h, List.length_cons]
      have hle := (collapseStep_sublist rest).length_le
      omega
    · simp only [collapseStep, if_neg h, List.length_cons]
      have hd2 : hasDoubleSpace (c2 :: rest) = true := by
        simp only [hasDoubleSpace] at hd
        rcases Bool.or_eq_true_iff.mp hd with h1 | h2
        · exact absurd h1 h
        · exact h2
      have := collapseStep_lt (c2 :: rest) hd2
      simp only [List.length_cons] at this ⊢
      omega

theorem collapseStep_ne_nil : ∀ l : List Char, l ≠ [] → collapseStep l ≠ []
  | [] => fun h => absurd rfl h
  | [c] => by simp [collapseStep]
  | c1 :: c2 :: rest => by
    intro _
    by_cases h : (c1 == ' ' && c2 == ' ') = true <;> simp [collapseStep, h]

theorem getLast?_cons_of_ne_nil (a : Char) (l : List Char) (h : l ≠ []) :
    (a :: l).getLast? = l.getLast? := by
  cases l with
  | nil => exact absurd rfl h
  | cons b bs => simp

theorem collapseStep_getLast? : ∀ l : List Char, (collapseStep l).getLast? = l.getLast?
  | [] => rfl
  | [c] => rfl
  | c1 :: c2 :: rest => by
    by_cases h : (c1 == ' ' && c2 == ' ') = true
    · simp only [collapseStep, if_pos h]
      have h2 : c2 = ' ' := by
        simp only [Bool.and_eq_true, beq_iff_eq] at h
        exact h.2
      cases rest with
      | nil => subst h2; simp [collapseStep]
      | cons x xs =>
        have hne : collapseStep (x :: xs) ≠ [] := collapseStep_ne_nil _ (by simp)
        rw [getLast?_cons_of_ne_nil _ _ hne, collapseStep_getLast? (x :: xs),
          List.getLast?_cons_cons, List.getLast?_cons_cons]
    · simp only [collapseStep, if_neg h]
      have hne : collapseStep (c2 :: rest) ≠ [] := collapseStep_ne_nil _ (by simp)
      rw [getLast?_cons_of_ne_nil _ _ hne, collapseStep_getLast? (c2 :: rest),
        List.getLast?_cons_cons]

theorem collapseIter_noDouble : ∀ (fuel : Nat) (l : List Char), l.length ≤ fuel →
    hasDoubleSpace (collapseIter fuel l) = false
  | 0, l => by
    intro h
    have hnil : l = [] := List.eq_nil_of_length_eq_zero (by omega)
    subst hnil
    rfl
  | fuel + 1, l => by
    intro h
    by_cases hd : hasDoubleSpace l = true
    · simp only [collapseIter, if_pos hd]
      exact collapseIter_noDouble fuel (collapseStep l)
        (by have := collapseStep_lt l hd; omega)
    · simp only [collapseIter, if_neg hd]
      simp only [Bool.not_eq_true] at hd
      exact hd

theorem collapseIter_sublist : ∀ (fuel : Nat) (l : List Char),
    List.Sublist (collapseIter fuel l) l
  | 0, l => List.Sublist.refl l
  | fuel + 1, l => by
    by_cases hd : hasDoubleSpace l = true
    · simp only [collapseIter, if_pos hd]
      exact (collapseIter_sublist fuel (collapseStep l)).trans (collapseStep_sublist l)
    · simp only [collapseIter, if_neg hd]
      exact List.Sublist.refl l

theorem collapseIter_getLast? : ∀ (fuel : Nat) (l : List Char),
    (collapseIter fuel l).getLast? = l.getLast?
  | 0, l => rfl
  | fuel + 1, l => by
    by_cases hd : hasDoubleSpace l = true
    · simp only [collapseIter, if_pos hd]
      rw [collapseIter_getLast? fuel (collapseStep l), collapseStep_getLast? l]
    · simp only [collapseIter, if_neg hd]

theorem head?_dropWhile_false (p : Char → Bool) : ∀ (l : List Char) (c : Char),
    (l.dropWhile p).head? = some c → p c = false
  | [], c => by simp [List.dropWhile]
  | a :: as, c => by
    intro h
    by_cases hp : p a = true
    · rw [List.dropWhile_cons_of_pos hp] at h
      exact head?_dropWhile_false p as c h
    · rw [List.dropWhile_cons_of_neg hp] at h
      simp only [List.head?_cons, Option.some.injEq] at h
      subst h
      simp only [Bool.not_eq_true] at hp
      exact hp

theorem stripEnds_sublist (p : Char → Bool) (l : List Char) :
    List.Sublist (stripEnds p l) l := by
  unfold stripEnds
  have h1 : List.Sublist (l.dropWhile p) l := List.dropWhile_sublist p
  have h2 : List.Sublist ((l.dropWhile p).reverse.dropWhile p) (l.dropWhile p).reverse :=
    List.dropWhile_sublist p
  have h3 := h2.reverse
  rw [List.reverse_reverse] at h3
  exact h3.trans h1

theorem stripEnds_getLast?_false (p : Char → Bool) (l : List Char) (c : Char)
    (h : (stripEnds p l).getLast? = some c) : p c = false := by
  unfold stripEnds at h
  rw [List.getLast?_reverse] at h
  exact head?_dropWhile_false p _ c h

/-- C2 counterexample: on the input of a dot, a space and the letter a, the
sanitizer returns the string of a space and the letter a, which begins with
whitespace: stripping whitespace happens once, before the dots are stripped,
so removing the leading dot exposes a leading space, against the claim that
the result never has leading or trailing whitespace. -/
theorem sanitize_name_whitespace_counterexample :
    sanitize_name ". a" = " a"
    ∧ (sanitize_name ". a").toList.head? = some ' '
    ∧ isPySpace ' ' = true := by
  refine ⟨rfl, rfl, rfl⟩

/-- C2 (amended): for every input string the sanitizer returns a non-empty
string that holds none of the forbidden characters, ends neither in a dot
nor (vacuously for the empty option) at all, and holds no two adjacent
spaces; the leading-and-trailing-whitespace part of the original claim is
dropped, since stripping dots after whitespace can expose whitespace at
either end. -/
theorem sanitize_name_amended (raw : String) :
    0 < (sanitize_name raw).length
    ∧ (sanitize_name raw).toList.all (fun c => ! badChars.contains c) = true
    ∧ (sanitize_name raw).toList.getLast?.all (fun c => ! (c == '.')) = true
    ∧ hasDoubleSpace (sanitize_name raw).toList = false := by
  unfold sanitize_name
  by_cases h0 : raw = ""
  · rw [if_pos h0]
    refine ⟨by decide, by decide, by decide, by decide⟩
  · rw [if_neg h0]
    by_cases h1 : pySanitizeCore raw.toList = []
    · rw [if_pos h1]
      refine ⟨by decide, by decide, by decide, by decide⟩
    · rw [if_neg h1]
      have hlist : (String.mk (pySanitizeCore raw.toList)).toList
          = pySanitizeCore raw.toList := rfl
      refine ⟨?_, ?_, ?_, ?_⟩
      · have hlen : (String.mk (pySanitizeCore raw.toList)).length
            = (pySanitizeCore raw.toList).length := rfl
        rw [hlen]
        exact List.length_pos.mpr h1
      · rw [hlist, List.all_eq_true]
        intro c hc
        have hc2 : c ∈ replaceBad raw.toList := by
          have hs1 := (collapseIter_sublist
            (stripEnds (fun c => c == '.') (stripEnds isPySpace (replaceBad raw.toList))).length
            (stripEnds (fun c => c == '.') (stripEnds isPySpace (replaceBad raw.toList)))).subset
          have hs2 := (stripEnds_sublist (fun c => c == '.')
            (stripEnds isPySpace (replaceBad raw.toList))).subset
          have hs3 := (stripEnds_sublist isPySpace (replaceBad raw.toList)).subset
          exact hs3 (hs2 (hs1 hc))
        rcases List.mem_map.mp hc2 with ⟨b, hb, hbc⟩
        by_cases hbb : badChars.contains b = true
        · rw [if_pos hbb] at hbc
          rw [← hbc]
          decide
        · rw [if_neg hbb] at hbc
          rw [← hbc]
          simp only [Bool.not_eq_true] at hbb
          rw [hbb]
          rfl
      · rw [hlist]
        have hg : (pySanitizeCore raw.toList).getLast?
            = (stripEnds (fun c => c == '.')
                (stripEnds isPySpace (replaceBad raw.toList))).getLast? :=
          collapseIter_getLast? _ _
        rw [hg]
        cases hl : (stripEnds (fun c => c == '.')
            (stripEnds isPySpace (replaceBad raw.toList))).getLast? with
        | none => rfl
        | some c =>
          have := stripEnds_getLast?_false (fun c => c == '.') _ c hl
          simp only [Option.all_some, this]
          rfl
      · rw [hlist]
        exact collapseIter_noDouble _ _ (le_refl _)

theorem digitChar_toNat (m : Nat) (h : m < 10) : (Nat.digitChar m).toNat = m + 48 := by
  interval_cases m <;> rfl

theorem decodeLE_natReprLE : ∀ (fuel n : Nat), n < fuel →
    decodeLE (natReprLE fuel n) = n
  | 0, n => by omega
  | fuel + 1, n => by
    intro h
    by_cases h10 : n < 10
    · simp only [natReprLE, if_pos h10, decodeLE]
      rw [digitChar_toNat n h10]
      omega
    · simp only [natReprLE, if_neg h10, decodeLE]
      rw [digitChar_toNat (n % 10) (by omega),
        decodeLE_natReprLE fuel (n / 10) (by omega)]
      omega

theorem natRepr_inj (m n : Nat) (h : natRepr m = natRepr n) : m = n := by
  have hd : (natReprLE (m + 1) m).reverse = (natReprLE (n + 1) n).reverse :=
    congrArg String.data h
  have hd2 : natReprLE (m + 1) m = natReprLE (n + 1) n := by
    have h2 := congrArg List.reverse hd
    simpa using h2
  have h1 := decodeLE_natReprLE (m + 1) m (by omega)
  have h2 := decodeLE_natReprLE (n + 1) n (by omega)
  rw [← h1, ← h2, hd2]

theorem uf_candidate_inj (root ext : String) (m n : Nat)
    (h : uf_candidate root ext m = uf_candidate root ext n) : m = n := by
  unfold uf_candidate at h
  have hd := congrArg String.data h
  simp only [String.data_append] at hd
  have h1 := List.append_cancel_right hd
  have h2 := List.append_cancel_right h1
  have h3 := List.append_cancel_left h2
  exact natRepr_inj m n (String.ext h3)

theorem exists_free_candidate (dirfiles : List String) (root ext : String) :
    ∃ j, j < dirfiles.length + 1 ∧ uf_candidate root ext (1 + j) ∉ dirfiles := by
  by_contra hc
  push_neg at hc
  have hinj : Function.Injective (fun j => uf_candidate root ext (1 + j)) := by
    intro a b hab
    have := uf_candidate_inj root ext (1 + a) (1 + b) hab
    omega
  have hnd : ((List.range (dirfiles.length + 1)).map
      (fun j => uf_candidate root ext (1 + j))).Nodup :=
    (List.nodup_range _).map hinj
  have hsub : ((List.range (dirfiles.length + 1)).map
      (fun j => uf_candidate root ext (1 + j))) ⊆ dirfiles := by
    intro x hx
    rcases List.mem_map.mp hx with ⟨j, hj, rfl⟩
    exact hc j (List.mem_range.mp hj)
  have hle := (List.subperm_of_subset hnd hsub).length_le
  simp only [List.length_map, List.length_range] at hle
  omega

theorem uf_loop_spec (dirfiles : List String) (root ext : String) :
    ∀ (fuel counter : Nat) (cand : String),
      (∃ j, j ≤ fuel ∧ chainAt root ext cand counter j ∉ dirfiles) →
      ∃ j, uf_loop dirfiles root ext cand counter fuel = chainAt root ext cand counter j
        ∧ chainAt root ext cand counter j ∉ dirfiles
        ∧ ∀ i, i < j → chainAt root ext cand counter i ∈ dirfiles
  | 0, counter, cand => by
    rintro ⟨j, hj, hfree⟩
    have hj0 : j = 0 := by omega
    subst hj0
    exact ⟨0, rfl, hfree, by omega⟩
  | fuel + 1, counter, cand => by
    rintro ⟨j, hj, hfree⟩
    by_cases hin : cand ∈ dirfiles
    · have hj0 : j ≠ 0 := by
        rintro rfl
        exact hfree hin
      obtain ⟨j', rfl⟩ : ∃ j', j = j' + 1 := ⟨j - 1, by omega⟩
      have hshift : ∀ i, chainAt root ext (uf_candidate root ext counter) (counter + 1) i
          = chainAt root ext cand counter (i + 1) := by
        intro i
        cases i with
        | zero => rfl
        | succ k =>
          show uf_candidate root ext (counter + 1 + k) = uf_candidate root ext (counter + (k + 1))
          congr 1
          omega
      obtain ⟨j2, heq, hfree2, hall⟩ :=
        uf_loop_spec dirfiles root ext fuel (counter + 1) (uf_candidate root ext counter)
          ⟨j', by omega, by rw [hshift]; exact hfree⟩
      refine ⟨j2 + 1, ?_, ?_, ?_⟩
      · simp only [uf_loop, if_pos hin]
        rw [heq, hshift j2]
      · rw [← hshift j2]
        exact hfree2
      · intro i hi
        cases i with
        | zero => exact hin
        | succ k =>
          rw [← hshift k]
          exact hall k (by omega)
    · exact ⟨0, by simp only [uf_loop, if_neg hin]; rfl, hin, by omega⟩

/-- C10: unique_filename returns the first name, among the base name followed
by the numbered candidates counting up from one, that is absent from the
directory listing; in particular with the base file present a second call
returns the name with the suffix of one, and with that present too a third
call returns the suffix of two. -/
theorem unique_filename_first_free :
    (∀ (dirfiles : List String) (base : String),
      ∃ j, unique_filename dirfiles base
            = chainAt (splitext base).1 (splitext base).2 base 1 j
        ∧ chainAt (splitext base).1 (splitext base).2 base 1 j ∉ dirfiles
        ∧ ∀ i, i < j → chainAt (splitext base).1 (splitext base).2 base 1 i ∈ dirfiles)
    ∧ unique_filename ["x.pdf"] "x.pdf" = "x (1).pdf"
    ∧ unique_filename ["x.pdf", "x (1).pdf"] "x.pdf" = "x (2).pdf"
    ∧ unique_filename [] "x.pdf" = "x.pdf" := by
  refine ⟨?_, by decide, by decide, by decide⟩
  intro dirfiles base
  obtain ⟨j, hj, hfree⟩ :=
    exists_free_candidate dirfiles (splitext base).1 (splitext base).2
  exact uf_loop_spec dirfiles (splitext base).1 (splitext base).2
    (dirfiles.length + 1) 1 base ⟨j + 1, by omega, hfree⟩

theorem processPage_snd : ∀ (ps : List Prayer) (seen : List Int),
    (processPage ps seen).2 = seen ++ idsOf (processPage ps seen).1
  | [], seen => by simp [processPage, idsOf]
  | p :: ps, seen => by
    by_cases hd : p.isDict = true
    · cases hid : p.id with
      | some pid =>
        by_cases hmem : pid ∈ seen
        · simp only [processPage, if_pos hd, hid, if_pos hmem]
          exact processPage_snd ps seen
        · simp only [processPage, if_pos hd, hid, if_neg hmem]
          rw [processPage_snd ps (seen ++ [pid])]
          simp [idsOf, List.filterMap_cons, hd, hid]
      | none =>
        simp only [processPage, if_pos hd, hid]
        rw [processPage_snd ps seen]
        simp [idsOf, List.filterMap_cons, hd, hid]
    · simp only [processPage, if_neg hd]
      exact processPage_snd ps seen

theorem processPage_nodup : ∀ (ps : List Prayer) (seen : List Int), seen.Nodup →
    ((processPage ps seen).2).Nodup
  | [], seen => by
    intro h
    simpa [processPage]
  | p :: ps, seen => by
    intro h
    by_cases hd : p.isDict = true
    · cases hid : p.id with
      | some pid =>
        by_cases hmem : pid ∈ seen
        · simp only [processPage, if_pos hd, hid, if_pos hmem]
          exact processPage_nodup ps seen h
        · simp only [processPage, if_pos hd, hid, if_neg hmem]
          exact processPage_nodup ps (seen ++ [pid])
            (by simp [List.nodup_append, h, hmem])
      | none =>
        simp only [processPage, if_pos hd, hid]
        exact processPage_nodup ps seen h
    · simp only [processPage, if_neg hd]
      exact processPage_nodup ps seen h

/- One unfolding step of the page loop: an empty page stops at once. -/
theorem iterPages_cons_some_empty (pg : Page) (rest : List (Option Page))
    (seen : List Int) (total : Option Int) (he : pg.prayers.isEmpty = true) :
    iterPages (some pg :: rest) seen total = ([], 1) := by
  simp [iterPages, he]

/- One unfolding step of the page loop: a non-empty page whose processing
   reaches the known total stops without requesting further pages. -/
theorem iterPages_cons_some_stop (pg : Page) (rest : List (Option Page))
    (seen : List Int) (total : Option Int) (he : pg.prayers.isEmpty = false)
    (hstop : ((match pg.totalCount with | some t => some t | none => total).any
        (fun t => decide (t ≤ ((processPage pg.prayers seen).2.length : Int)))) = true) :
    iterPages (some pg :: rest) seen total = ((processPage pg.prayers seen).1, 1) := by
  simp only [iterPages, he]
  rw [hstop]
  simp

/- One unfolding step of the page loop: a non-empty page below the known
   total yields its fresh items and continues with the next page. -/
theorem iterPages_cons_some_go (pg : Page) (rest : List (Option Page))
    (seen : List Int) (total : Option Int) (he : pg.prayers.isEmpty = false)
    (hstop : ((match pg.totalCount with | some t => some t | none => total).any
        (fun t => decide (t ≤ ((processPage pg.prayers seen).2.length : Int)))) = false) :
    iterPages (some pg :: rest) seen total
      = ((processPage pg.prayers seen).1
          ++ (iterPages rest (processPage pg.prayers seen).2
              (match pg.totalCount with | some t => some t | none => total)).1,
         (iterPages rest (processPage pg.prayers seen).2
              (match pg.totalCount with | some t => some t | none => total)).2 + 1) := by
  simp only [iterPages, he]
  rw [hstop]
  simp

theorem iterPages_nodup : ∀ (pages : List (Option Page)) (seen : List Int)
    (total : Option Int), seen.Nodup →
    (seen ++ idsOf (iterPages pages seen total).1).Nodup
  | [], seen, total => by
    intro h
    simpa [iterPages, idsOf]
  | none :: rest, seen, total => by
    intro h
    simpa [iterPages, idsOf]
  | some pg :: rest, seen, total => by
    intro h
    by_cases he : pg.prayers.isEmpty = true
    · rw [iterPages_cons_some_empty pg rest seen total he]
      simpa [idsOf]
    · have he2 : pg.prayers.isEmpty = false := by
        simpa using he
      by_cases hstop : ((match pg.totalCount with | some t => some t | none => total).any
          (fun t => decide (t ≤ ((processPage pg.prayers seen).2.length : Int)))) = true
      · rw [iterPages_cons_some_stop pg rest seen total he2 hstop]
        have h2 := processPage_nodup pg.prayers seen h
        rw [processPage_snd pg.prayers seen] at h2
        exact h2
      · have hstop2 : ((match pg.totalCount with | some t => some t | none => total).any
            (fun t => decide (t ≤ ((processPage pg.prayers seen).2.length : Int)))) = false := by
          simpa using hstop
        rw [iterPages_cons_some_go pg rest seen total he2 hstop2]
        have hpp := processPage_nodup pg.prayers seen h
        have ihm := iterPages_nodup rest (processPage pg.prayers seen).2
          (match pg.totalCount with | some t => some t | none => total) hpp
        nth_rewrite 1 [processPage_snd pg.prayers seen] at ihm
        simpa [idsOf, List.filterMap_append, List.append_assoc] using ihm

/-- C3 counterexample: with page 0 reporting a total of one and holding the
item of id one, page 1 holding the item of id two, and page 2 empty, the
iterator stops after page 0 because the seen count reached the reported
total, so the item of page 1 is never yielded: the claimed conclusion that
exactly the items of pages 0 and 1 are yielded whenever page 2 is empty
fails. -/
theorem iter_prayers_totalcount_counterexample :
    iter_prayers cePages = ([itemA], 1)
    ∧ itemB ∉ (iter_prayers cePages).1 := by
  refine ⟨by decide, by decide⟩

/-- C3 (amended): the iterator never yields two items with the same integer
id (an item with a seen id is skipped, a fresh one is recorded and yielded);
and when page 2 is the empty page, the yielded items are exactly those of
pages 0 and 1 that survive the id-deduplication, in page order, provided the
total reported by page 0 (if any) does not stop the iteration after page 0;
at most pages 0, 1 and 2 are requested. -/
theorem iter_prayers_pages01_amended :
    (∀ pages : List (Option Page), (idsOf (iter_prayers pages).1).Nodup)
    ∧ (∀ (p0 p1 pe : Page) (rest : List (Option Page)),
        p0.prayers.isEmpty = false →
        p1.prayers.isEmpty = false →
        pe.prayers.isEmpty = true →
        (p0.totalCount.any
          (fun t => decide (t ≤ ((processPage p0.prayers []).2.length : Int)))) = false →
        (iter_prayers (some p0 :: some p1 :: some pe :: rest)).1
          = (processPage p0.prayers []).1
            ++ (processPage p1.prayers (processPage p0.prayers []).2).1
        ∧ (iter_prayers (some p0 :: some p1 :: some pe :: rest)).2 ≤ 3) := by
  constructor
  · intro pages
    have h := iterPages_nodup pages [] none List.nodup_nil
    simpa [iter_prayers] using h
  · intro p0 p1 pe rest h0 h1 he hstop
    unfold iter_prayers
    have hm0 : (match p0.totalCount with | some t => some t | none => (none : Option Int))
        = p0.totalCount := by cases p0.totalCount <;> rfl
    rw [iterPages_cons_some_go p0 _ [] none h0 (by rw [hm0]; exact hstop)]
    by_cases hs1 : ((match p1.totalCount with
        | some t => some t
        | none => (match p0.totalCount with | some t => some t | none => (none : Option Int))).any
        (fun t => decide
          (t ≤ ((processPage p1.prayers (processPage p0.prayers []).2).2.length : Int)))) = true
    · rw [iterPages_cons_some_stop p1 _ _ _ h1 hs1]
      exact ⟨rfl, by omega⟩
    · have hs1f : ((match p1.totalCount with
          | some t => some t
          | none => (match p0.totalCount with | some t => some t | none => (none : Option Int))).any
          (fun t => decide
            (t ≤ ((processPage p1.prayers (processPage p0.prayers []).2).2.length : Int)))) = false := by
        simpa using hs1
      rw [iterPages_cons_some_go p1 _ _ _ h1 hs1f]
      rw [iterPages_cons_some_empty pe rest _ _ he]
      exact ⟨by simp, by omega⟩

/-- Witness for the amended C3 at concrete pages: page 0 reports a total of
five and holds the items of ids one and two, page 1 repeats the id two and
adds the id three, page 2 is empty; the hypotheses hold by evaluation and
the conclusion instantiates the theorem. -/
theorem iter_prayers_pages01_amended_witness :
    (iter_prayers [some wp0, some wp1, some wpe]).1
      = (processPage wp0.prayers []).1
        ++ (processPage wp1.prayers (processPage wp0.prayers []).2).1
    ∧ (iter_prayers [some wp0, some wp1, some wpe]).2 ≤ 3 :=
  iter_prayers_pages01_amended.2 wp0 wp1 wpe []
    (by decide) (by decide) (by decide) (by decide)

/-- C4: the loop stops, issuing no further page requests, as soon as a full
page leaves the seen-set size at or above the sticky known total; and in the
concrete scenario of a page 0 reporting a total of three and holding two
items followed by a page 1 reporting no total and holding the third item,
the retained total stops the iteration right after the third unique item,
with exactly two page requests whatever pages would follow. -/
theorem iter_prayers_sticky_total_stop :
    (∀ (pg : Page) (rest : List (Option Page)) (seen : List Int)
        (total : Option Int) (t : Int),
      pg.prayers.isEmpty = false →
      (match pg.totalCount with | some x => some x | none => total) = some t →
      t ≤ ((processPage pg.prayers seen).2.length : Int) →
      iterPages (some pg :: rest) seen total = ((processPage pg.prayers seen).1, 1))
    ∧ (∀ rest : List (Option Page),
        iter_prayers (some ⟨some 3, [itemA, itemB]⟩ :: some ⟨none, [itemC]⟩ :: rest)
          = ([itemA, itemB, itemC], 2)) := by
  constructor
  · intro pg rest seen total t he htot hge
    refine iterPages_cons_some_stop pg rest seen total he ?_
    rw [htot]
    simpa using hge
  · intro rest
    unfold iter_prayers
    rw [iterPages_cons_some_go ⟨some 3, [itemA, itemB]⟩ _ [] none (by decide) (by decide)]
    rw [iterPages_cons_some_stop ⟨none, [itemC]⟩ rest _ _ (by decide) (by decide)]
    decide

/-- Witness for C4 at a concrete page reporting a total of one and holding
one item: the loop stops after that page. -/
theorem iter_prayers_sticky_total_stop_witness :
    iterPages [some ⟨some 1, [itemA]⟩] [] none = ([itemA], 1) := by
  have h := iter_prayers_sticky_total_stop.1 ⟨some 1, [itemA]⟩ [] [] none 1
    (by decide) rfl (by decide)
  simpa using h

/-- C1 counterexample: a download to a destination with the .pdf extension
whose body is the single byte of the letter A (so it does not start with the
PDF magic bytes) but whose content-type is application/pdf is neither
deleted nor failed: the requests-path validation accepts it because the
content-type holds pdf, the file stays on disk and the call returns
normally, against the claim that every such download is deleted and raises
a validation error. -/
theorem stream_download_pdf_ct_counterexample :
    stream_download true "u" "a.pdf" ⟨true, "application/pdf", [[65]]⟩ ⟨[]⟩
      = (⟨[("a.pdf", [65])]⟩, .ok, true)
    ∧ pdfMagic.isPrefixOf [65] = false
    ∧ (splitext "a.pdf").2 = ".pdf"
    ∧ FS.lookup ⟨[("a.pdf", [65])]⟩ "a.pdf" = some [65] := by
  refine ⟨by decide, by decide, by decide, by decide⟩

/-- C1 (amended): on a fresh destination with a successful response, the
requests transport deletes the written file and raises the RuntimeError
naming the observed content-type exactly when the destination extension is
.pdf or the content-type holds pdf, and either no non-empty chunk arrived or
the first chunk lacks the PDF magic while the content-type does not hold
pdf.  Both directions of that characterisation are settled: the error case
(first conjunct), the keep cases when the content-type holds pdf and a
chunk arrived (second), when the first chunk bears the magic (third), and
when the download is not pdf-like at all (fourth).  The urllib fallback
validates only on the .pdf extension (never on the content-type alone), its
error does not name the content-type, and it keeps a body bearing the magic
or a destination without the .pdf extension.  The final conjuncts exhibit
the delete and keep effects on the filesystem. -/
theorem stream_download_validation_amended (url dest : String) (resp : HttpResponse)
    (fs : FS)
    (hskip : (fs.lookup dest).any (fun b => ! b.isEmpty) = false)
    (hok : resp.ok = true) :
    ((lowerStr (splitext dest).2 == ".pdf"
        || strContains (lowerStr resp.contentType) "pdf") = true →
      ((resp.chunks.filter (fun c => ! c.isEmpty)).head?.isNone
        || (! (resp.chunks.filter (fun c => ! c.isEmpty)).head?.any
              (fun c => pdfMagic.isPrefixOf c)
            && ! strContains (lowerStr resp.contentType) "pdf")) = true →
      stream_download true url dest resp fs
        = ((fs.write dest (resp.chunks.filter (fun c => ! c.isEmpty)).flatten).erase dest,
            .valErr (pdfErrMsg (lowerStr resp.contentType)), true))
    ∧ (strContains (lowerStr resp.contentType) "pdf" = true →
        (resp.chunks.filter (fun c => ! c.isEmpty)).head?.isNone = false →
        stream_download true url dest resp fs
          = (fs.write dest (resp.chunks.filter (fun c => ! c.isEmpty)).flatten, .ok, true))
    ∧ ((resp.chunks.filter (fun c => ! c.isEmpty)).head?.any
          (fun c => pdfMagic.isPrefixOf c) = true →
        stream_download true url dest resp fs
          = (fs.write dest (resp.chunks.filter (fun c => ! c.isEmpty)).flatten, .ok, true))
    ∧ ((lowerStr (splitext dest).2 == ".pdf"
          || strContains (lowerStr resp.contentType) "pdf") = false →
        stream_download true url dest resp fs
          = (fs.write dest (resp.chunks.filter (fun c => ! c.isEmpty)).flatten, .ok, true))
    ∧ ((lowerStr (splitext dest).2 == ".pdf") = true →
        (! (resp.chunks.takeWhile (fun c => ! c.isEmpty)).head?.any
            (fun c => pdfMagic.isPrefixOf c)) = true →
        stream_download false url dest resp fs
          = ((fs.write dest (resp.chunks.takeWhile (fun c => ! c.isEmpty)).flatten).erase dest,
              .valErr "Downloaded content is not a PDF", true))
    ∧ ((resp.chunks.takeWhile (fun c => ! c.isEmpty)).head?.any
          (fun c => pdfMagic.isPrefixOf c) = true →
        stream_download false url dest resp fs
          = (fs.write dest (resp.chunks.takeWhile (fun c => ! c.isEmpty)).flatten, .ok, true))
    ∧ ((lowerStr (splitext dest).2 == ".pdf") = false →
        stream_download false url dest resp fs
          = (fs.write dest (resp.chunks.takeWhile (fun c => ! c.isEmpty)).flatten, .ok, true))
    ∧ (∀ b, ((fs.write dest b).erase dest).lookup dest = none)
    ∧ (∀ b, (fs.write dest b).lookup dest = some b) := by
  refine ⟨?_, ?_, ?_, ?_, ?_, ?_, ?_,
    fun b => FS.lookup_erase_self (fs.write dest b) dest,
    fun b => FS.lookup_write_self fs dest b⟩
  · intro h1 h2
    simp only [stream_download, hskip, hok]
    rw [h1, h2]
    simp
  · intro h1 h2
    simp only [stream_download, hskip, hok]
    by_cases hpdf : (lowerStr (splitext dest).2 == ".pdf") = true
    · rw [hpdf, h1]
      simp [h1, h2]
      simpa using h2
    · have hpdf2 : (lowerStr (splitext dest).2 == ".pdf") = false := by simpa using hpdf
      rw [hpdf2, h1]
      simp [h1, h2]
      simpa using h2
  · intro hm
    have hno : (resp.chunks.filter (fun c => ! c.isEmpty)).head?.isNone = false := by
      cases hh : (resp.chunks.filter (fun c => ! c.isEmpty)).head? with
      | none => rw [hh] at hm; simp at hm
      | some c => rfl
    simp only [stream_download, hskip, hok]
    by_cases hpdfish : (lowerStr (splitext dest).2 == ".pdf"
        || strContains (lowerStr resp.contentType) "pdf") = true
    · rw [hpdfish, hno, hm]
      simp
    · have hf : (lowerStr (splitext dest).2 == ".pdf"
          || strContains (lowerStr resp.contentType) "pdf") = false := by simpa using hpdfish
      rw [hf]
      simp
  · intro hnp
    simp only [stream_download, hskip, hok]
    rw [hnp]
    simp
  · intro h1 h2
    simp only [stream_download, hskip, hok]
    rw [h1, h2]
    simp
  · intro hm
    simp only [stream_download, hskip, hok]
    by_cases hpdf : (lowerStr (splitext dest).2 == ".pdf") = true
    · rw [hpdf, hm]
      simp
    · have hf : (lowerStr (splitext dest).2 == ".pdf") = false := by simpa using hpdf
      rw [hf]
      simp
  · intro h1
    simp only [stream_download, hskip, hok]
    rw [h1]
    simp

/-- Witness for the amended C1: a fresh destination with the .pdf extension,
an empty content-type and a body of one chunk lacking the PDF magic is
written, then deleted, and the call fails with the RuntimeError naming the
(unknown) content-type. -/
theorem stream_download_validation_amended_witness :
    stream_download true "u" "a.pdf" ⟨true, "", [[66]]⟩ ⟨[]⟩
      = ((FS.write ⟨[]⟩ "a.pdf"
            ((([[66]] : List Bytes).filter (fun c => ! c.isEmpty)).flatten)).erase "a.pdf",
          .valErr (pdfErrMsg (lowerStr "")), true) :=
  (stream_download_validation_amended "u" "a.pdf" ⟨true, "", [[66]]⟩ ⟨[]⟩
    (by decide) rfl).1 (by decide) (by decide)

end Crawl
